import Mathlib

/-!
Verification of `lambda-janitor` (src/lambda_janitor/main.py) against its
natural-language specification.

The handler `lambda_handler` below is a shallow embedding of the Python
function of the same name (main.py lines 46-101), together with its helpers
`get_invocation_count` (lines 103-125), `delete_lambda_version`
(lines 127-135) and `send_cleanup_alert` (lines 137-174).

Machine-level modelling decisions, each noted where it is made:
* Python `datetime` values are modelled by `PyDt`: a wall-clock instant in
  microseconds together with an optional UTC-offset (`none` = naive,
  `some o` = aware with offset `o` minutes).  Comparing a naive and an
  aware datetime raises `TypeError` in Python; the model's comparison
  operators therefore return `Except PyError Bool`.
* The registry's `LastModified` strings are in the AWS format
  `%Y-%m-%dT%H:%M:%S.%f%z` (e.g. `2024-10-25T12:00:00.000+0000`); they are
  modelled by their parsed field content `AwsLM` (wall-clock microseconds
  plus the mandatory `%z` offset).  `strptime` with this format always
  yields an aware datetime, since the `%z` directive cannot match an empty
  string.
* Pagination of `list_functions` / `list_versions_by_function` is flattened
  into plain lists (enumeration order preserved); the spec scopes
  pagination mechanics out.
* The three `datetime.now()` calls are modelled as a single instant `now`
  (the real calls are microseconds apart within one run).
* CloudWatch datapoint sums are rationals; the metrics store is an
  environment function returning either the datapoint list or an error.
* The HTML body built by `send_cleanup_alert` (lines 145-161) is elided:
  no verified property mentions the message content, only whether a send
  is attempted and to which addresses.
-/

/-- A Python exception class, as far as this program distinguishes them. -/
inductive PyError where
  | typeError
  | valueError
  deriving DecidableEq

/-- Microseconds in one day: `timedelta(days=1)`. -/
def microsPerDay : ℤ := 86400000000

/-- A Python `datetime`: wall-clock microseconds, plus `utcoffset` in
minutes (`none` for a naive datetime, `some o` for an aware one). -/
structure PyDt where
  wall : ℤ
  tz : Option ℤ
  deriving DecidableEq

/-- Python `a > b` on datetimes: naive/naive compares wall-clock,
aware/aware compares absolute instants, mixed raises `TypeError`. -/
def pyGt (a b : PyDt) : Except PyError Bool :=
  match a.tz, b.tz with
  | none, none => .ok (decide (b.wall < a.wall))
  | some ta, some tb => .ok (decide (b.wall - tb * 60000000 < a.wall - ta * 60000000))
  | _, _ => .error .typeError

/-- Python `a <= b` on datetimes; same awareness rules as `pyGt`. -/
def pyLe (a b : PyDt) : Except PyError Bool :=
  match a.tz, b.tz with
  | none, none => .ok (decide (a.wall ≤ b.wall))
  | some ta, some tb => .ok (decide (a.wall - ta * 60000000 ≤ b.wall - tb * 60000000))
  | _, _ => .error .typeError

/-- The parsed field content of a registry `LastModified` string in the AWS
format `%Y-%m-%dT%H:%M:%S.%f%z`: the `%Y...%f` part as wall-clock
microseconds and the (mandatory) `%z` offset in minutes. -/
structure AwsLM where
  naiveMicros : ℤ
  offsetMinutes : ℤ
  deriving DecidableEq

/-- One element of a `list_versions_by_function` page:
`version["Version"]` and `version["LastModified"]`. -/
structure VersionRec (LM : Type) where
  version : String
  lastModified : LM
  deriving DecidableEq

/-- One element of a `list_functions` page with its enumerated versions. -/
structure FunctionRec (LM : Type) where
  functionName : String
  versions : List (VersionRec LM)
  deriving DecidableEq

/-- The external world the run reads: the registry enumeration, the
CloudWatch response per (function name, version), and whether
`delete_function` succeeds per (function name, qualifier).  The delete
outcome is consulted only by the registry itself (see `applyDeletions`):
`delete_lambda_version` swallows it either way. -/
structure Env (LM : Type) where
  functions : List (FunctionRec LM)
  metrics : String → String → Except Unit (List ℚ)
  deleteOk : String → String → Bool

/-- The environment-variable configuration read at module load
(main.py lines 37-40). -/
structure Config where
  retentionDays : ℤ
  alertDays : ℤ
  emailSenderEnv : Option String
  emailRecipientsEnv : Option String

/-- Python `str.split(sep)` for a one-character separator, on the
character list: splitting the empty string yields `[[]]`, one (empty)
group. -/
def pySplitChar (sep : Char) : List Char → List (List Char)
  | [] => [[]]
  | c :: rest =>
    match pySplitChar sep rest with
    | [] => [[]]
    | grp :: grps => if c = sep then [] :: grp :: grps else (c :: grp) :: grps

/-- Python `s.split(sep)`: always returns at least one element; in
particular `"".split(",") = [""]`. -/
def pySplit (s : String) (sep : Char) : List String :=
  (pySplitChar sep s.data).map String.mk

/-- Line 39: `EMAIL_RECIPIENTS = os.getenv("EMAIL_RECIPIENTS", "").split(",")`. -/
def EMAIL_RECIPIENTS (cfg : Config) : List String :=
  pySplit (cfg.emailRecipientsEnv.getD "") ','

/-- Python truthiness of the `EMAIL_SENDER` value: `os.getenv` returns
`None` when unset; `None` and `""` are falsy. -/
def senderTruthy : Option String → Bool
  | none => false
  | some s => !(s == "")

/-- `get_invocation_count` (lines 103-125): sum the returned datapoint
`Sum`s; any exception is caught, logged, and turned into `0`. -/
def get_invocation_count (metrics : String → String → Except Unit (List ℚ))
    (function_name version : String) : ℚ :=
  match metrics function_name version with
  | .ok datapoints => datapoints.sum
  | .error _ => 0

/-- `delete_lambda_version` (lines 127-135): the `delete_function` call is
wrapped in `try/except Exception`, so it returns normally whether or not
the delete succeeded. -/
def delete_lambda_version (_deleteOutcome : Bool) : Except PyError Unit :=
  .ok ()

/-- An SES `send_email` request, as far as properties inspect it
(the HTML body is elided). -/
structure SesCall where
  source : String
  toAddresses : List String
  deriving DecidableEq

/-- What one call of `send_cleanup_alert` does. -/
inductive AlertOutcome where
  | skippedMissingConfig
  | attempted (call : SesCall)
  deriving DecidableEq

/-- `send_cleanup_alert` (lines 137-174).  Guard (line 141):
`if not EMAIL_RECIPIENTS or not EMAIL_SENDER: return` — skip with a logged
error.  Otherwise an SES send is attempted; an SES failure is caught and
logged (lines 173-174), so the function returns normally either way.
The list parameters are carried for fidelity; they feed only the elided
HTML body. -/
def send_cleanup_alert {α : Type} (cfg : Config)
    (_alert_versions _deleted_versions : List α) : AlertOutcome :=
  if (EMAIL_RECIPIENTS cfg).isEmpty || !senderTruthy cfg.emailSenderEnv then
    .skippedMissingConfig
  else
    .attempted ⟨(cfg.emailSenderEnv.getD ""), EMAIL_RECIPIENTS cfg⟩

/-- The datetime operations `lambda_handler` performs, abstracted over the
datetime representation so that the handler is written once:
`parse` is line 76's `strptime`, `gt`/`le` are the comparisons of
lines 79-80, `subDays` is `datetime.now() - timedelta(days=n)`. -/
structure DtOps (DT LM : Type) where
  parse : LM → Except PyError DT
  gt : DT → DT → Except PyError Bool
  le : DT → DT → Except PyError Bool
  subDays : DT → ℤ → DT

/-- The mutable state of one run of `lambda_handler`: the two result lists
(lines 57-58) plus the trace of external calls issued so far. -/
structure RunState (DT : Type) where
  alert_versions : List (String × String × DT)
  deleted_versions : List (String × String × DT)
  metricCalls : List (String × String)
  deleteCalls : List (String × String)
  deriving DecidableEq

/-- The body of the innermost loop (lines 72-92) for one `version` record:
skip the `$LATEST` sentinel; parse `LastModified`; alert or skip the
not-yet-old; otherwise query metrics, skip if invoked, else append to
`deleted_versions` (line 91) and then attempt the delete (line 92). -/
def process_version {DT LM : Type} (ops : DtOps DT LM)
    (metrics : String → String → Except Unit (List ℚ))
    (deleteOk : String → String → Bool)
    (cutoff_date alert_date : DT) (function_name : String)
    (st : RunState DT) (v : VersionRec LM) : Except PyError (RunState DT) :=
  if v.version = "$LATEST" then .ok st
  else do
    let last_modified ← ops.parse v.lastModified
    let isNewer ← ops.gt last_modified cutoff_date
    if isNewer then do
      let inWindow ← ops.le last_modified alert_date
      if inWindow then
        .ok { st with alert_versions :=
          st.alert_versions ++ [(function_name, v.version, last_modified)] }
      else
        .ok st
    else do
      let st := { st with metricCalls := st.metricCalls ++ [(function_name, v.version)] }
      let invocation_count := get_invocation_count metrics function_name v.version
      if 0 < invocation_count then
        .ok st
      else do
        let st := { st with
          deleted_versions := st.deleted_versions ++ [(function_name, v.version, last_modified)],
          deleteCalls := st.deleteCalls ++ [(function_name, v.version)] }
        let _ ← delete_lambda_version (deleteOk function_name v.version)
        .ok st

/-- Run a fallible step over a list, stopping at the first raised
exception and reporting the state reached so far. -/
def foldStep {α St : Type} (f : St → α → Except PyError St) :
    St → List α → St × Option PyError
  | st, [] => (st, none)
  | st, a :: rest =>
    match f st a with
    | .ok st' => foldStep f st' rest
    | .error e => (st, some e)

/-- The outer loop over functions (lines 63-92): each function's versions
are processed in enumeration order; an escaping exception aborts the
whole iteration. -/
def process_functions {DT LM : Type} (ops : DtOps DT LM)
    (metrics : String → String → Except Unit (List ℚ))
    (deleteOk : String → String → Bool)
    (cutoff_date alert_date : DT) :
    RunState DT → List (FunctionRec LM) → RunState DT × Option PyError
  | st, [] => (st, none)
  | st, fn :: rest =>
    match foldStep (process_version ops metrics deleteOk cutoff_date alert_date
        fn.functionName) st fn.versions with
    | (st', none) => process_functions ops metrics deleteOk cutoff_date alert_date st' rest
    | (st', some e) => (st', some e)

/-- The observable result of one run: final state, how many times the
Notifier (`send_cleanup_alert`) was invoked and what it did, and the
exception re-raised by the top-level handler, if any. -/
structure RunResult (DT : Type) where
  st : RunState DT
  notifierCalls : ℕ
  alertOutcome : Option AlertOutcome
  outcome : Option PyError
  deriving DecidableEq

/-- `lambda_handler` (lines 46-101): compute `cutoff_date` and
`alert_date` (lines 54-55), iterate all functions and versions, then
(line 94) invoke `send_cleanup_alert` once iff either list is non-empty.
Any exception escaping the loops is logged and re-raised (lines 99-101). -/
def lambda_handler {DT LM : Type} (ops : DtOps DT LM) (cfg : Config)
    (env : Env LM) (now : DT) : RunResult DT :=
  let cutoff_date := ops.subDays now cfg.retentionDays
  let alert_date := ops.subDays now (cfg.retentionDays - cfg.alertDays)
  let init : RunState DT := ⟨[], [], [], []⟩
  match process_functions ops env.metrics env.deleteOk cutoff_date alert_date
      init env.functions with
  | (st, some e) => ⟨st, 0, none, some e⟩
  | (st, none) =>
    if !st.alert_versions.isEmpty || !st.deleted_versions.isEmpty then
      ⟨st, 1, some (send_cleanup_alert cfg st.alert_versions st.deleted_versions), none⟩
    else
      ⟨st, 0, none, none⟩

/-- The datetime operations of the code as written: `strptime` with the
`%z` format always yields an aware datetime, while `now`, `cutoff_date`
and `alert_date` are naive (`datetime.now()`). -/
def awsOps : DtOps PyDt AwsLM where
  parse lm := .ok ⟨lm.naiveMicros, some lm.offsetMinutes⟩
  gt := pyGt
  le := pyLe
  subDays d n := ⟨d.wall - n * microsPerDay, d.tz⟩

/-- The run exactly as the source executes it: registry timestamps are
AWS-format strings (parsed to aware datetimes), the cutoff is naive.
`nowWall` is the wall clock of `datetime.now()`. -/
def runAws (cfg : Config) (env : Env AwsLM) (nowWall : ℤ) : RunResult PyDt :=
  lambda_handler awsOps cfg env ⟨nowWall, none⟩

/-- The same handler over already-parsed, mutually comparable instants
(microseconds): the classification policy of lines 72-95 with the
timestamp representation mismatch factored out (timestamps enter as the
instants the `%Y-%m-%dT%H:%M:%S.%f%z` strings denote, and the comparisons
of lines 79-80 succeed).  This isolates the branch logic the spec
describes from the naive/aware crash established separately. -/
def instOps : DtOps ℤ ℤ where
  parse t := .ok t
  gt a b := .ok (decide (b < a))
  le a b := .ok (decide (a ≤ b))
  subDays d n := d - n * microsPerDay

/-- The classification-policy run: `lambda_handler` over comparable
instants. -/
def runInstants (cfg : Config) (env : Env ℤ) (now : ℤ) : RunResult ℤ :=
  lambda_handler instOps cfg env now

/-- `cutoff_date` of line 54, as an instant. -/
def cutoffOf (cfg : Config) (now : ℤ) : ℤ := now - cfg.retentionDays * microsPerDay

/-- `alert_date` of line 55, as an instant. -/
def alertDateOf (cfg : Config) (now : ℤ) : ℤ :=
  now - (cfg.retentionDays - cfg.alertDays) * microsPerDay

/-- The registry after a set of delete requests: a successful
`delete_function(FunctionName, Qualifier)` removes that version from
future enumerations; a failed one leaves it in place. -/
def applyDeletions (env : Env ℤ) (calls : List (String × String)) : Env ℤ :=
  { env with functions := env.functions.map (fun fn =>
      { fn with versions := fn.versions.filter (fun v =>
          !(decide ((fn.functionName, v.version) ∈ calls) &&
            env.deleteOk fn.functionName v.version)) }) }

/-! ## Behaviour of the run as written (`runAws`)

Every non-sentinel version reaches line 79's comparison of an aware
`last_modified` against the naive `cutoff_date`, which raises `TypeError`
before any state change; sentinel versions are skipped at line 73. -/

lemma process_version_aws (m : String → String → Except Unit (List ℚ))
    (dok : String → String → Bool) (cw aw : ℤ) (f : String)
    (st : RunState PyDt) (v : VersionRec AwsLM) :
    process_version awsOps m dok ⟨cw, none⟩ ⟨aw, none⟩ f st v =
      if v.version = "$LATEST" then .ok st else .error .typeError := by
  by_cases h : v.version = "$LATEST" <;>
    simp [process_version, awsOps, pyGt, h, Bind.bind, Except.bind]

lemma foldStep_aws (m : String → String → Except Unit (List ℚ))
    (dok : String → String → Bool) (cw aw : ℤ) (f : String) :
    ∀ (vs : List (VersionRec AwsLM)) (st : RunState PyDt),
    foldStep (process_version awsOps m dok ⟨cw, none⟩ ⟨aw, none⟩ f) st vs =
      (st, if vs.all (fun v => v.version == "$LATEST") then none else some .typeError) := by
  intro vs
  induction vs with
  | nil => intro st; rfl
  | cons v rest ih =>
    intro st
    by_cases h : v.version = "$LATEST"
    · simp [foldStep, process_version_aws, h, ih]
    · simp [foldStep, process_version_aws, h]

lemma process_functions_aws (m : String → String → Except Unit (List ℚ))
    (dok : String → String → Bool) (cw aw : ℤ) :
    ∀ (fns : List (FunctionRec AwsLM)) (st : RunState PyDt),
    process_functions awsOps m dok ⟨cw, none⟩ ⟨aw, none⟩ st fns =
      (st, if fns.all (fun fn => fn.versions.all (fun v => v.version == "$LATEST"))
           then none else some .typeError) := by
  intro fns
  induction fns with
  | nil => intro st; rfl
  | cons fn rest ih =>
    intro st
    by_cases h : fn.versions.all (fun v => v.version == "$LATEST")
    · simp [process_functions, foldStep_aws, h, ih]
    · simp [process_functions, foldStep_aws, h]

/-- Closed form of the run as written: the state is always empty, the
notifier is never invoked, and the run raises `TypeError` exactly when the
registry holds any non-sentinel version. -/
lemma runAws_spec (cfg : Config) (env : Env AwsLM) (nowWall : ℤ) :
    runAws cfg env nowWall =
      ⟨⟨[], [], [], []⟩, 0, none,
        if env.functions.all (fun fn => fn.versions.all (fun v => v.version == "$LATEST"))
        then none else some .typeError⟩ := by
  have hsub : ∀ n : ℤ, awsOps.subDays ⟨nowWall, none⟩ n = ⟨nowWall - n * microsPerDay, none⟩ :=
    fun n => rfl
  simp only [runAws, lambda_handler, hsub, process_functions_aws]
  by_cases h : env.functions.all (fun fn => fn.versions.all (fun v => v.version == "$LATEST")) <;>
    simp [h]

/-- C4: in every run in which the registry returns at least one
non-sentinel version, comparing the timezone-aware parsed `LastModified`
with the naive `datetime.now()`-derived cutoff raises `TypeError`, which
escapes the per-version logic, is re-raised by the top-level handler, and
aborts the whole run with no classification, metric lookup, deletion, or
notification having occurred. -/
theorem C4_aware_naive_comparison_aborts_run (cfg : Config) (env : Env AwsLM)
    (nowWall : ℤ)
    (h : ∃ fn ∈ env.functions, ∃ v ∈ fn.versions, v.version ≠ "$LATEST") :
    (runAws cfg env nowWall).outcome = some .typeError ∧
    (runAws cfg env nowWall).st = ⟨[], [], [], []⟩ ∧
    (runAws cfg env nowWall).notifierCalls = 0 ∧
    (runAws cfg env nowWall).alertOutcome = none := by
  have hall : env.functions.all
      (fun fn => fn.versions.all (fun v => v.version == "$LATEST")) = false := by
    obtain ⟨fn, hfn, v, hv, hns⟩ := h
    by_contra hc
    rw [Bool.not_eq_false, List.all_eq_true] at hc
    have h2 := hc fn hfn
    rw [List.all_eq_true] at h2
    exact hns (by simpa using h2 v hv)
  rw [runAws_spec, hall]
  exact ⟨rfl, rfl, rfl, rfl⟩

/-- The default-flavoured configuration: 30-day retention, 7-day alert
lead, both email variables set. -/
def cfgDefault : Config :=
  ⟨30, 7, some "notify@example.com", some "user@example.com,admin@example.com"⟩

/-- A registry with a single ordinary version, last modified 35 days
before `now = 0` (offset `+0000`), never invoked. -/
def envC4 : Env AwsLM :=
  ⟨[⟨"app", [⟨"1", ⟨(-35) * microsPerDay, 0⟩⟩]⟩], fun _ _ => .ok [], fun _ _ => true⟩

theorem C4_aware_naive_comparison_aborts_run_witness :
    (∃ fn ∈ envC4.functions, ∃ v ∈ fn.versions, v.version ≠ "$LATEST") ∧
    ((runAws cfgDefault envC4 0).outcome = some .typeError ∧
     (runAws cfgDefault envC4 0).st = ⟨[], [], [], []⟩ ∧
     (runAws cfgDefault envC4 0).notifierCalls = 0 ∧
     (runAws cfgDefault envC4 0).alertOutcome = none) :=
  ⟨by decide, C4_aware_naive_comparison_aborts_run cfgDefault envC4 0 (by decide)⟩

/-! ## Evaluations exhibiting the divergences of C1, C3 and C8 -/

/-- A registry with one ordinary version, 35 days old at `now = 0`, with
zero invocations (`Datapoints = []`): per the spec it must be deleted. -/
def envC1 : Env AwsLM :=
  ⟨[⟨"orders", [⟨"3", ⟨(-35) * microsPerDay, 0⟩⟩]⟩], fun _ _ => .ok [], fun _ _ => true⟩

/-- C1, failing input: a version with `lastModified <= cutoff` and zero
invocations over the lookback window is not deleted — the run aborts with
`TypeError` at line 79 before any metric lookup or delete request, and
`deletedList` stays empty. -/
theorem C1_eligible_version_not_deleted_run_aborts :
    runAws cfgDefault envC1 0 = ⟨⟨[], [], [], []⟩, 0, none, some .typeError⟩ := by
  rfl

/-- A registry with one ordinary version 25 days old at `now = 0`: with
30-day retention and 7-day alert lead it lies inside the alert window
`(cutoff, cutoff + alertLead]` and per the spec must be alerted. -/
def envC3 : Env AwsLM :=
  ⟨[⟨"billing", [⟨"7", ⟨(-25) * microsPerDay, 0⟩⟩]⟩], fun _ _ => .ok [], fun _ _ => true⟩

/-- C3, failing input: a version inside the alert window is not added to
`alertList` — the run aborts with `TypeError` at line 79 before the alert
branch can execute, and `alertList` stays empty. -/
theorem C3_alert_window_version_not_alerted_run_aborts :
    runAws cfgDefault envC3 0 = ⟨⟨[], [], [], []⟩, 0, none, some .typeError⟩ := by
  rfl

/-- Configuration with `EMAIL_SENDER` set but `EMAIL_RECIPIENTS` unset. -/
def cfgC8 : Config := ⟨30, 7, some "notify@example.com", none⟩

/-- Configuration with `EMAIL_RECIPIENTS` set but `EMAIL_SENDER` unset. -/
def cfgC8sender : Config := ⟨30, 7, none, some "user@example.com"⟩

/-- C8, failing input: with `EMAIL_RECIPIENTS` unset (and a sender set),
`"".split(",")` yields the truthy list `[""]`, so the guard at line 141
does not fire and an SES send to `ToAddresses = [""]` is attempted — the
notification step is not skipped.  (With the sender missing the skip does
happen, as the claim says.) -/
theorem C8_missing_recipients_does_not_skip_send :
    send_cleanup_alert cfgC8 ([] : List (String × String × ℤ))
        [("orders", "3", (-35) * microsPerDay)] =
      .attempted ⟨"notify@example.com", [""]⟩ ∧
    send_cleanup_alert cfgC8sender ([] : List (String × String × ℤ))
        [("orders", "3", (-35) * microsPerDay)] =
      .skippedMissingConfig := by
  exact ⟨rfl, rfl⟩

/-! ## Closed form of the classification-policy run (`runInstants`)

Over comparable instants every per-version step succeeds; the run is a
fold whose effect on each list is described by a filter over the
enumerated versions. -/

/-- The total effect of one iteration of the inner loop (lines 72-92) on
the run state, over comparable instants. -/
def stepSpec (metrics : String → String → Except Unit (List ℚ))
    (cutoff_date alert_date : ℤ) (function_name : String)
    (st : RunState ℤ) (v : VersionRec ℤ) : RunState ℤ :=
  if v.version = "$LATEST" then st
  else if cutoff_date < v.lastModified then
    if v.lastModified ≤ alert_date then
      { st with alert_versions :=
        st.alert_versions ++ [(function_name, v.version, v.lastModified)] }
    else st
  else
    let st' := { st with metricCalls := st.metricCalls ++ [(function_name, v.version)] }
    if 0 < get_invocation_count metrics function_name v.version then st'
    else { st' with
      deleted_versions := st'.deleted_versions ++ [(function_name, v.version, v.lastModified)],
      deleteCalls := st'.deleteCalls ++ [(function_name, v.version)] }

lemma process_version_inst (metrics : String → String → Except Unit (List ℚ))
    (dok : String → String → Bool) (cutoff_date alert_date : ℤ)
    (function_name : String) (st : RunState ℤ) (v : VersionRec ℤ) :
    process_version instOps metrics dok cutoff_date alert_date function_name st v =
      .ok (stepSpec metrics cutoff_date alert_date function_name st v) := by
  by_cases h1 : v.version = "$LATEST"
  · simp [process_version, stepSpec, h1]
  · by_cases h2 : cutoff_date < v.lastModified
    · by_cases h3 : v.lastModified ≤ alert_date <;>
        simp [process_version, stepSpec, instOps, h1, h2, h3, Bind.bind, Except.bind]
    · by_cases h4 : 0 < get_invocation_count metrics function_name v.version <;>
        simp [process_version, stepSpec, instOps, h1, h2, h4, Bind.bind, Except.bind,
          delete_lambda_version]

lemma foldStep_inst (metrics : String → String → Except Unit (List ℚ))
    (dok : String → String → Bool) (cutoff_date alert_date : ℤ)
    (function_name : String) :
    ∀ (vs : List (VersionRec ℤ)) (st : RunState ℤ),
    foldStep (process_version instOps metrics dok cutoff_date alert_date function_name) st vs =
      (vs.foldl (stepSpec metrics cutoff_date alert_date function_name) st, none) := by
  intro vs
  induction vs with
  | nil => intro st; rfl
  | cons v rest ih => intro st; simp [foldStep, process_version_inst, ih, List.foldl]

lemma process_functions_inst (metrics : String → String → Except Unit (List ℚ))
    (dok : String → String → Bool) (cutoff_date alert_date : ℤ) :
    ∀ (fns : List (FunctionRec ℤ)) (st : RunState ℤ),
    process_functions instOps metrics dok cutoff_date alert_date st fns =
      (fns.foldl (fun st fn =>
        fn.versions.foldl (stepSpec metrics cutoff_date alert_date fn.functionName) st) st,
       none) := by
  intro fns
  induction fns with
  | nil => intro st; rfl
  | cons fn rest ih => intro st; simp [process_functions, foldStep_inst, ih, List.foldl]

/-- Members of `alertList` contributed by one function: the versions of
the alert branch (line 80): non-sentinel, newer than cutoff, at or before
`alert_date`. -/
def alertsOf (cutoff_date alert_date : ℤ) (function_name : String)
    (vs : List (VersionRec ℤ)) : List (String × String × ℤ) :=
  (vs.filter (fun v => decide (v.version ≠ "$LATEST" ∧ cutoff_date < v.lastModified ∧
      v.lastModified ≤ alert_date))).map
    (fun v => (function_name, v.version, v.lastModified))

/-- Versions of one function whose metrics are looked up (line 85):
non-sentinel and not newer than cutoff. -/
def metricCallsOf (cutoff_date : ℤ) (function_name : String)
    (vs : List (VersionRec ℤ)) : List (String × String) :=
  (vs.filter (fun v => decide (v.version ≠ "$LATEST" ∧
      ¬(cutoff_date < v.lastModified)))).map
    (fun v => (function_name, v.version))

/-- Members of `deletedList` contributed by one function (line 91):
non-sentinel, not newer than cutoff, invocation count not positive. -/
def deletedOf (metrics : String → String → Except Unit (List ℚ)) (cutoff_date : ℤ)
    (function_name : String) (vs : List (VersionRec ℤ)) : List (String × String × ℤ) :=
  (vs.filter (fun v => decide (v.version ≠ "$LATEST" ∧ ¬(cutoff_date < v.lastModified) ∧
      ¬(0 < get_invocation_count metrics function_name v.version)))).map
    (fun v => (function_name, v.version, v.lastModified))

/-- Delete requests issued for one function (line 92): same versions as
`deletedOf`, as (FunctionName, Qualifier) pairs. -/
def deleteCallsOf (metrics : String → String → Except Unit (List ℚ)) (cutoff_date : ℤ)
    (function_name : String) (vs : List (VersionRec ℤ)) : List (String × String) :=
  (vs.filter (fun v => decide (v.version ≠ "$LATEST" ∧ ¬(cutoff_date < v.lastModified) ∧
      ¬(0 < get_invocation_count metrics function_name v.version)))).map
    (fun v => (function_name, v.version))

lemma foldl_stepSpec (metrics : String → String → Except Unit (List ℚ))
    (cutoff_date alert_date : ℤ) (function_name : String) :
    ∀ (vs : List (VersionRec ℤ)) (st : RunState ℤ),
    vs.foldl (stepSpec metrics cutoff_date alert_date function_name) st =
      ⟨st.alert_versions ++ alertsOf cutoff_date alert_date function_name vs,
       st.deleted_versions ++ deletedOf metrics cutoff_date function_name vs,
       st.metricCalls ++ metricCallsOf cutoff_date function_name vs,
       st.deleteCalls ++ deleteCallsOf metrics cutoff_date function_name vs⟩ := by
  intro vs
  induction vs with
  | nil =>
    intro st
    simp [alertsOf, deletedOf, metricCallsOf, deleteCallsOf]
  | cons v rest ih =>
    intro st
    rw [List.foldl_cons, ih]
    by_cases h1 : v.version = "$LATEST"
    · simp [stepSpec, h1, alertsOf, deletedOf, metricCallsOf, deleteCallsOf, List.filter_cons]
    · by_cases h2 : cutoff_date < v.lastModified
      · by_cases h3 : v.lastModified ≤ alert_date <;>
          simp [stepSpec, h1, h2, h3, alertsOf, deletedOf, metricCallsOf, deleteCallsOf,
            List.filter_cons]
      · have h2' := not_lt.mp h2
        by_cases h4 : 0 < get_invocation_count metrics function_name v.version
        · have h4' := not_le.mpr h4
          simp [stepSpec, h1, h2, h2', h4, h4', alertsOf, deletedOf, metricCallsOf,
            deleteCallsOf, List.filter_cons]
        · have h4' := not_lt.mp h4
          simp [stepSpec, h1, h2, h2', h4, h4', alertsOf, deletedOf, metricCallsOf,
            deleteCallsOf, List.filter_cons]

/-- `alertList` of a whole policy run. -/
def alertsRun (cutoff_date alert_date : ℤ) (fns : List (FunctionRec ℤ)) :
    List (String × String × ℤ) :=
  fns.flatMap (fun fn => alertsOf cutoff_date alert_date fn.functionName fn.versions)

/-- `deletedList` of a whole policy run. -/
def deletedRun (metrics : String → String → Except Unit (List ℚ)) (cutoff_date : ℤ)
    (fns : List (FunctionRec ℤ)) : List (String × String × ℤ) :=
  fns.flatMap (fun fn => deletedOf metrics cutoff_date fn.functionName fn.versions)

/-- Metric lookups of a whole policy run. -/
def metricCallsRun (cutoff_date : ℤ) (fns : List (FunctionRec ℤ)) :
    List (String × String) :=
  fns.flatMap (fun fn => metricCallsOf cutoff_date fn.functionName fn.versions)

/-- Delete requests of a whole policy run. -/
def deleteCallsRun (metrics : String → String → Except Unit (List ℚ)) (cutoff_date : ℤ)
    (fns : List (FunctionRec ℤ)) : List (String × String) :=
  fns.flatMap (fun fn => deleteCallsOf metrics cutoff_date fn.functionName fn.versions)

lemma foldl_functions_spec (metrics : String → String → Except Unit (List ℚ))
    (cutoff_date alert_date : ℤ) :
    ∀ (fns : List (FunctionRec ℤ)) (st : RunState ℤ),
    fns.foldl (fun st fn =>
        fn.versions.foldl (stepSpec metrics cutoff_date alert_date fn.functionName) st) st =
      ⟨st.alert_versions ++ alertsRun cutoff_date alert_date fns,
       st.deleted_versions ++ deletedRun metrics cutoff_date fns,
       st.metricCalls ++ metricCallsRun cutoff_date fns,
       st.deleteCalls ++ deleteCallsRun metrics cutoff_date fns⟩ := by
  intro fns
  induction fns with
  | nil =>
    intro st
    simp [alertsRun, deletedRun, metricCallsRun, deleteCallsRun]
  | cons fn rest ih =>
    intro st
    rw [List.foldl_cons, foldl_stepSpec, ih]
    simp [alertsRun, deletedRun, metricCallsRun, deleteCallsRun, List.flatMap_cons,
      List.append_assoc]

/-- The final state of the policy run: classification is a filter over the
enumerated versions. -/
lemma runInstants_st (cfg : Config) (env : Env ℤ) (now : ℤ) :
    (runInstants cfg env now).st =
      ⟨alertsRun (cutoffOf cfg now) (alertDateOf cfg now) env.functions,
       deletedRun env.metrics (cutoffOf cfg now) env.functions,
       metricCallsRun (cutoffOf cfg now) env.functions,
       deleteCallsRun env.metrics (cutoffOf cfg now) env.functions⟩ := by
  have hsub : ∀ n : ℤ, instOps.subDays now n = now - n * microsPerDay := fun n => rfl
  simp only [runInstants, lambda_handler, hsub, process_functions_inst, foldl_functions_spec,
    cutoffOf, alertDateOf]
  split <;> rfl

/-- The policy run never raises: every per-version step succeeds. -/
lemma runInstants_outcome (cfg : Config) (env : Env ℤ) (now : ℤ) :
    (runInstants cfg env now).outcome = none := by
  have hsub : ∀ n : ℤ, instOps.subDays now n = now - n * microsPerDay := fun n => rfl
  simp only [runInstants, lambda_handler, hsub, process_functions_inst]
  split <;> rfl

lemma mem_alertsRun {cutoff_date alert_date : ℤ} {fns : List (FunctionRec ℤ)}
    {f v : String} {lm : ℤ} :
    (f, v, lm) ∈ alertsRun cutoff_date alert_date fns ↔
      ∃ fn ∈ fns, fn.functionName = f ∧ (⟨v, lm⟩ : VersionRec ℤ) ∈ fn.versions ∧
        v ≠ "$LATEST" ∧ cutoff_date < lm ∧ lm ≤ alert_date := by
  simp only [alertsRun, List.mem_flatMap, alertsOf, List.mem_map, List.mem_filter,
    decide_eq_true_eq, Prod.mk.injEq]
  constructor
  · rintro ⟨fn, hfn, a, ⟨ha, hns, hgt, hle⟩, hf, hv, hlm⟩
    subst hf hv hlm
    exact ⟨fn, hfn, rfl, ha, hns, hgt, hle⟩
  · rintro ⟨fn, hfn, hname, hmem, hns, hgt, hle⟩
    exact ⟨fn, hfn, ⟨v, lm⟩, ⟨hmem, hns, hgt, hle⟩, hname, rfl, rfl⟩

lemma mem_deletedRun {metrics : String → String → Except Unit (List ℚ)}
    {cutoff_date : ℤ} {fns : List (FunctionRec ℤ)} {f v : String} {lm : ℤ} :
    (f, v, lm) ∈ deletedRun metrics cutoff_date fns ↔
      ∃ fn ∈ fns, fn.functionName = f ∧ (⟨v, lm⟩ : VersionRec ℤ) ∈ fn.versions ∧
        v ≠ "$LATEST" ∧ lm ≤ cutoff_date ∧
        ¬(0 < get_invocation_count metrics f v) := by
  simp only [deletedRun, List.mem_flatMap, deletedOf, List.mem_map, List.mem_filter,
    decide_eq_true_eq, not_lt, Prod.mk.injEq]
  constructor
  · rintro ⟨fn, hfn, a, ⟨ha, hns, hle, hcnt⟩, hf, hv, hlm⟩
    subst hf hv hlm
    exact ⟨fn, hfn, rfl, ha, hns, hle, hcnt⟩
  · rintro ⟨fn, hfn, hname, hmem, hns, hle, hcnt⟩
    subst hname
    exact ⟨fn, hfn, ⟨v, lm⟩, ⟨hmem, hns, hle, hcnt⟩, rfl, rfl, rfl⟩

lemma mem_metricCallsRun {cutoff_date : ℤ} {fns : List (FunctionRec ℤ)} {f v : String} :
    (f, v) ∈ metricCallsRun cutoff_date fns ↔
      ∃ fn ∈ fns, fn.functionName = f ∧ ∃ lm, (⟨v, lm⟩ : VersionRec ℤ) ∈ fn.versions ∧
        v ≠ "$LATEST" ∧ lm ≤ cutoff_date := by
  simp only [metricCallsRun, List.mem_flatMap, metricCallsOf, List.mem_map, List.mem_filter,
    decide_eq_true_eq, not_lt, Prod.mk.injEq]
  constructor
  · rintro ⟨fn, hfn, a, ⟨ha, hns, hle⟩, hf, hv⟩
    subst hf hv
    exact ⟨fn, hfn, rfl, a.lastModified, ha, hns, hle⟩
  · rintro ⟨fn, hfn, hname, lm, hmem, hns, hle⟩
    exact ⟨fn, hfn, ⟨v, lm⟩, ⟨hmem, hns, hle⟩, hname, rfl⟩

lemma mem_deleteCallsRun {metrics : String → String → Except Unit (List ℚ)}
    {cutoff_date : ℤ} {fns : List (FunctionRec ℤ)} {f v : String} :
    (f, v) ∈ deleteCallsRun metrics cutoff_date fns ↔
      ∃ fn ∈ fns, fn.functionName = f ∧ ∃ lm, (⟨v, lm⟩ : VersionRec ℤ) ∈ fn.versions ∧
        v ≠ "$LATEST" ∧ lm ≤ cutoff_date ∧
        ¬(0 < get_invocation_count metrics f v) := by
  simp only [deleteCallsRun, List.mem_flatMap, deleteCallsOf, List.mem_map, List.mem_filter,
    decide_eq_true_eq, not_lt, Prod.mk.injEq]
  constructor
  · rintro ⟨fn, hfn, a, ⟨ha, hns, hle, hcnt⟩, hf, hv⟩
    subst hf hv
    exact ⟨fn, hfn, rfl, a.lastModified, ha, hns, hle, hcnt⟩
  · rintro ⟨fn, hfn, hname, lm, hmem, hns, hle, hcnt⟩
    subst hname
    exact ⟨fn, hfn, ⟨v, lm⟩, ⟨hmem, hns, hle, hcnt⟩, rfl, rfl⟩

/-! ## Claims about the classification policy -/

/-- C2: a version whose `lastModified` is newer than the cutoff is never
the target of a delete request and is never added to `deletedList`,
whatever its invocation count (the metrics environment is arbitrary).
Stated over the classification-policy run; in the run as written the
conclusion holds for every version whatsoever, since the `TypeError`
abort precedes any delete (see the C4 theorem). -/
theorem C2_version_newer_than_cutoff_never_deleted (cfg : Config) (env : Env ℤ)
    (now : ℤ) (f v : String) (lm : ℤ)
    (hmem : ∃ fn ∈ env.functions, fn.functionName = f ∧
      (⟨v, lm⟩ : VersionRec ℤ) ∈ fn.versions)
    (huniq : ∀ fn ∈ env.functions, fn.functionName = f →
      ∀ w ∈ fn.versions, w.version = v → w.lastModified = lm)
    (hnew : cutoffOf cfg now < lm) :
    (f, v) ∉ (runInstants cfg env now).st.deleteCalls ∧
    ∀ d, (f, v, d) ∉ (runInstants cfg env now).st.deleted_versions := by
  rw [runInstants_st]
  constructor
  · intro hc
    obtain ⟨fn, hfn, hname, lm2, hv2, hns, hle, -⟩ := mem_deleteCallsRun.mp hc
    have he : lm2 = lm := huniq fn hfn hname ⟨v, lm2⟩ hv2 rfl
    subst he
    exact absurd hnew (not_lt.mpr hle)
  · intro d hc
    obtain ⟨fn, hfn, hname, hv2, hns, hle, -⟩ := mem_deletedRun.mp hc
    have he : d = lm := huniq fn hfn hname ⟨v, d⟩ hv2 rfl
    subst he
    exact absurd hnew (not_lt.mpr hle)

/-- A registry with one version only 10 days old at `now = 0`. -/
def envC2 : Env ℤ :=
  ⟨[⟨"app", [⟨"9", -10 * microsPerDay⟩]⟩], fun _ _ => .ok [], fun _ _ => true⟩

theorem C2_version_newer_than_cutoff_never_deleted_witness :
    (∃ fn ∈ envC2.functions, fn.functionName = "app" ∧
      (⟨"9", -10 * microsPerDay⟩ : VersionRec ℤ) ∈ fn.versions) ∧
    (∀ fn ∈ envC2.functions, fn.functionName = "app" →
      ∀ w ∈ fn.versions, w.version = "9" → w.lastModified = -10 * microsPerDay) ∧
    cutoffOf cfgDefault 0 < -10 * microsPerDay ∧
    (("app", "9") ∉ (runInstants cfgDefault envC2 0).st.deleteCalls ∧
     ∀ d, ("app", "9", d) ∉ (runInstants cfgDefault envC2 0).st.deleted_versions) :=
  ⟨by decide, by decide, by decide,
    C2_version_newer_than_cutoff_never_deleted cfgDefault envC2 0 "app" "9"
      (-10 * microsPerDay) (by decide) (by decide) (by decide)⟩

/-- C5: the mutable-head sentinel `$LATEST` is never classified in any
policy run: never in `alertList`, never in `deletedList`, never passed to
the metrics lookup, never the target of a delete request.  (In the run as
written this holds a fortiori: the C4 theorem shows no version at all is
classified.) -/
theorem C5_sentinel_never_evaluated (cfg : Config) (env : Env ℤ) (now : ℤ)
    (f : String) (lm : ℤ) :
    (f, "$LATEST", lm) ∉ (runInstants cfg env now).st.alert_versions ∧
    (f, "$LATEST", lm) ∉ (runInstants cfg env now).st.deleted_versions ∧
    (f, "$LATEST") ∉ (runInstants cfg env now).st.metricCalls ∧
    (f, "$LATEST") ∉ (runInstants cfg env now).st.deleteCalls := by
  rw [runInstants_st]
  refine ⟨fun hmem => ?_, fun hmem => ?_, fun hmem => ?_, fun hmem => ?_⟩
  · obtain ⟨fn, -, -, -, hns, -⟩ := mem_alertsRun.mp hmem
    exact hns rfl
  · obtain ⟨fn, -, -, -, hns, -⟩ := mem_deletedRun.mp hmem
    exact hns rfl
  · obtain ⟨fn, -, -, lm2, -, hns, -⟩ := mem_metricCallsRun.mp hmem
    exact hns rfl
  · obtain ⟨fn, -, -, lm2, -, hns, -⟩ := mem_deleteCallsRun.mp hmem
    exact hns rfl

/-- C6: after all functions are processed, `send_cleanup_alert` is
invoked exactly once when `alertList` or `deletedList` is non-empty, and
not at all when both are empty (line 94). -/
theorem C6_notifier_called_once_iff_some_list_nonempty (cfg : Config)
    (env : Env ℤ) (now : ℤ) :
    (runInstants cfg env now).notifierCalls =
      if (runInstants cfg env now).st.alert_versions = [] ∧
         (runInstants cfg env now).st.deleted_versions = [] then 0 else 1 := by
  have hsub : ∀ n : ℤ, instOps.subDays now n = now - n * microsPerDay := fun n => rfl
  simp only [runInstants, lambda_handler, hsub, process_functions_inst, foldl_functions_spec,
    List.nil_append]
  split
  next h =>
    simp only [Bool.or_eq_true, Bool.not_eq_true', List.isEmpty_eq_false] at h
    have hne : ¬(alertsRun (now - cfg.retentionDays * microsPerDay)
        (now - (cfg.retentionDays - cfg.alertDays) * microsPerDay) env.functions = [] ∧
        deletedRun env.metrics (now - cfg.retentionDays * microsPerDay) env.functions = []) := by
      rintro ⟨ha, hb⟩
      rcases h with h | h
      · exact h ha
      · exact h hb
    rw [if_neg hne]
  next h =>
    simp only [Bool.or_eq_true, not_or, Bool.not_eq_true', Bool.not_eq_false,
      List.isEmpty_iff] at h
    rw [if_pos ⟨h.1, h.2⟩]

/-- Full closed form of the policy run, including the notification step. -/
lemma runInstants_closed (cfg : Config) (env : Env ℤ) (now : ℤ) :
    runInstants cfg env now =
      (fun stv : RunState ℤ =>
        if !stv.alert_versions.isEmpty || !stv.deleted_versions.isEmpty then
          RunResult.mk stv 1
            (some (send_cleanup_alert cfg stv.alert_versions stv.deleted_versions)) none
        else RunResult.mk stv 0 none none)
      ⟨alertsRun (cutoffOf cfg now) (alertDateOf cfg now) env.functions,
       deletedRun env.metrics (cutoffOf cfg now) env.functions,
       metricCallsRun (cutoffOf cfg now) env.functions,
       deleteCallsRun env.metrics (cutoffOf cfg now) env.functions⟩ := by
  have hsub : ∀ n : ℤ, instOps.subDays now n = now - n * microsPerDay := fun n => rfl
  simp only [runInstants, lambda_handler, hsub, process_functions_inst, foldl_functions_spec,
    List.nil_append, cutoffOf, alertDateOf]

/-- Registry for C7: two old, never-invoked versions whose deletes all
fail. -/
def envC7 : Env ℤ :=
  ⟨[⟨"orders", [⟨"3", -35 * microsPerDay⟩, ⟨"4", -31 * microsPerDay⟩]⟩],
   fun _ _ => .ok [], fun _ _ => false⟩

/-- C7, counterexample: version `3` of `orders` is old and unused, its
delete request fails (`deleteOk = false`), yet it IS recorded in
`deletedList` — line 91 appends before line 92 attempts the delete, so a
failed delete is still reported as deleted, contrary to the claim. -/
theorem C7_failed_delete_still_recorded_counterexample :
    envC7.deleteOk "orders" "3" = false ∧
    ("orders", "3") ∈ (runInstants cfgDefault envC7 0).st.deleteCalls ∧
    ("orders", "3", -35 * microsPerDay) ∈
      (runInstants cfgDefault envC7 0).st.deleted_versions := by
  refine ⟨rfl, ?_, ?_⟩ <;> decide

/-- C7 as amended: when the delete request for a version fails, the
failure is recovered locally (`delete_lambda_version` returns normally
for every outcome) and the rest of the run is completely unaffected by
delete outcomes (so all remaining versions are processed and the run
completes), but the version IS recorded in `deletedList` and is the
target of a delete request — the append at line 91 precedes the attempt
at line 92. -/
theorem C7_failed_delete_recorded_and_run_continues (cfg : Config) (env : Env ℤ)
    (now : ℤ) (fnrec : FunctionRec ℤ) (v : String) (lm : ℤ)
    (hfn : fnrec ∈ env.functions)
    (hv : (⟨v, lm⟩ : VersionRec ℤ) ∈ fnrec.versions)
    (hns : v ≠ "$LATEST")
    (hold : lm ≤ cutoffOf cfg now)
    (hcnt : ¬0 < get_invocation_count env.metrics fnrec.functionName v)
    (hfail : env.deleteOk fnrec.functionName v = false) :
    (fnrec.functionName, v) ∈ (runInstants cfg env now).st.deleteCalls ∧
    (fnrec.functionName, v, lm) ∈ (runInstants cfg env now).st.deleted_versions ∧
    (runInstants cfg env now).outcome = none ∧
    (∀ b, delete_lambda_version b = .ok ()) ∧
    (∀ dok2, runInstants cfg { env with deleteOk := dok2 } now = runInstants cfg env now) := by
  refine ⟨?_, ?_, runInstants_outcome cfg env now, fun b => rfl, fun dok2 => ?_⟩
  · rw [runInstants_st]
    exact mem_deleteCallsRun.mpr ⟨fnrec, hfn, rfl, lm, hv, hns, hold, hcnt⟩
  · rw [runInstants_st]
    exact mem_deletedRun.mpr ⟨fnrec, hfn, rfl, hv, hns, hold, hcnt⟩
  · rw [runInstants_closed, runInstants_closed]

theorem C7_failed_delete_recorded_and_run_continues_witness :
    ((⟨"orders", [⟨"3", -35 * microsPerDay⟩, ⟨"4", -31 * microsPerDay⟩]⟩ :
        FunctionRec ℤ) ∈ envC7.functions) ∧
    ((⟨"3", -35 * microsPerDay⟩ : VersionRec ℤ) ∈
      (⟨"orders", [⟨"3", -35 * microsPerDay⟩, ⟨"4", -31 * microsPerDay⟩]⟩ :
        FunctionRec ℤ).versions) ∧
    "3" ≠ "$LATEST" ∧
    -35 * microsPerDay ≤ cutoffOf cfgDefault 0 ∧
    ¬0 < get_invocation_count envC7.metrics "orders" "3" ∧
    envC7.deleteOk "orders" "3" = false ∧
    (("orders", "3") ∈ (runInstants cfgDefault envC7 0).st.deleteCalls ∧
     ("orders", "3", -35 * microsPerDay) ∈
       (runInstants cfgDefault envC7 0).st.deleted_versions ∧
     (runInstants cfgDefault envC7 0).outcome = none ∧
     (∀ b, delete_lambda_version b = .ok ()) ∧
     (∀ dok2, runInstants cfgDefault { envC7 with deleteOk := dok2 } 0 =
       runInstants cfgDefault envC7 0)) :=
  ⟨by decide, by decide, by decide, by decide, by decide, rfl,
    C7_failed_delete_recorded_and_run_continues cfgDefault envC7 0
      ⟨"orders", [⟨"3", -35 * microsPerDay⟩, ⟨"4", -31 * microsPerDay⟩]⟩
      "3" (-35 * microsPerDay) (by decide) (by decide) (by decide) (by decide)
      (by decide) rfl⟩

/-- C9: a failed metric lookup is recovered locally and treated as a zero
invocation count, so an old version with an unreadable metric proceeds to
deletion (it is recorded in `deletedList` and a delete request is issued)
and the run still completes; a successful lookup returning no datapoints
also yields zero. -/
theorem C9_metric_failure_treated_as_zero (cfg : Config) (env : Env ℤ) (now : ℤ)
    (fnrec : FunctionRec ℤ) (v1 : String) (lm1 : ℤ) (v2 : String)
    (hfn : fnrec ∈ env.functions)
    (hv1 : (⟨v1, lm1⟩ : VersionRec ℤ) ∈ fnrec.versions)
    (hns1 : v1 ≠ "$LATEST")
    (herr : env.metrics fnrec.functionName v1 = .error ())
    (hold1 : lm1 ≤ cutoffOf cfg now)
    (hok2 : env.metrics fnrec.functionName v2 = .ok []) :
    get_invocation_count env.metrics fnrec.functionName v1 = 0 ∧
    get_invocation_count env.metrics fnrec.functionName v2 = 0 ∧
    (fnrec.functionName, v1, lm1) ∈ (runInstants cfg env now).st.deleted_versions ∧
    (fnrec.functionName, v1) ∈ (runInstants cfg env now).st.deleteCalls ∧
    (runInstants cfg env now).outcome = none := by
  have h1 : get_invocation_count env.metrics fnrec.functionName v1 = 0 := by
    simp [get_invocation_count, herr]
  have h2 : get_invocation_count env.metrics fnrec.functionName v2 = 0 := by
    simp [get_invocation_count, hok2]
  refine ⟨h1, h2, ?_, ?_, runInstants_outcome cfg env now⟩
  · rw [runInstants_st]
    exact mem_deletedRun.mpr ⟨fnrec, hfn, rfl, hv1, hns1, hold1, by simp [h1]⟩
  · rw [runInstants_st]
    exact mem_deleteCallsRun.mpr ⟨fnrec, hfn, rfl, lm1, hv1, hns1, hold1, by simp [h1]⟩

/-- Registry for C9: an old version whose metric lookup errors, and a
second version whose lookup succeeds with no datapoints. -/
def envC9 : Env ℤ :=
  ⟨[⟨"app", [⟨"1", -35 * microsPerDay⟩, ⟨"2", -40 * microsPerDay⟩]⟩],
   fun _ v => if v = "1" then .error () else .ok [], fun _ _ => true⟩

theorem C9_metric_failure_treated_as_zero_witness :
    ((⟨"app", [⟨"1", -35 * microsPerDay⟩, ⟨"2", -40 * microsPerDay⟩]⟩ :
        FunctionRec ℤ) ∈ envC9.functions) ∧
    ((⟨"1", -35 * microsPerDay⟩ : VersionRec ℤ) ∈
      (⟨"app", [⟨"1", -35 * microsPerDay⟩, ⟨"2", -40 * microsPerDay⟩]⟩ :
        FunctionRec ℤ).versions) ∧
    "1" ≠ "$LATEST" ∧
    envC9.metrics "app" "1" = .error () ∧
    -35 * microsPerDay ≤ cutoffOf cfgDefault 0 ∧
    envC9.metrics "app" "2" = .ok [] ∧
    (get_invocation_count envC9.metrics "app" "1" = 0 ∧
     get_invocation_count envC9.metrics "app" "2" = 0 ∧
     ("app", "1", -35 * microsPerDay) ∈ (runInstants cfgDefault envC9 0).st.deleted_versions ∧
     ("app", "1") ∈ (runInstants cfgDefault envC9 0).st.deleteCalls ∧
     (runInstants cfgDefault envC9 0).outcome = none) :=
  ⟨by decide, by decide, by decide, rfl, by decide, rfl,
    C9_metric_failure_treated_as_zero cfgDefault envC9 0
      ⟨"app", [⟨"1", -35 * microsPerDay⟩, ⟨"2", -40 * microsPerDay⟩]⟩
      "1" (-35 * microsPerDay) "2" (by decide) (by decide) (by decide) rfl
      (by decide) rfl⟩

/-- C10: run the cleanup, let every issued delete take effect in the
registry (all deletes succeed), and run again with the same `now` and the
same metrics: the second run's `deletedList` is empty — every surviving
old version was kept because of a positive invocation count, which is
unchanged, so it is kept again. -/
theorem C10_second_run_deletes_nothing (cfg : Config) (env : Env ℤ) (now : ℤ)
    (hdel : ∀ f v, env.deleteOk f v = true) :
    (runInstants cfg
        (applyDeletions env (runInstants cfg env now).st.deleteCalls) now).st.deleted_versions
      = [] := by
  rw [List.eq_nil_iff_forall_not_mem]
  intro x hmem
  obtain ⟨f, v, lm⟩ := x
  rw [runInstants_st] at hmem
  obtain ⟨fn2, hfn2, hname, hv2, hns, hold, hcnt⟩ := mem_deletedRun.mp hmem
  simp only [applyDeletions, List.mem_map] at hfn2
  obtain ⟨fn, hfn, rfl⟩ := hfn2
  simp only [List.mem_filter] at hv2
  obtain ⟨hvmem, hp⟩ := hv2
  have hnamefn : fn.functionName = f := hname
  have hin : (f, v) ∈ (runInstants cfg env now).st.deleteCalls := by
    rw [runInstants_st]
    exact mem_deleteCallsRun.mpr ⟨fn, hfn, hnamefn, lm, hvmem, hns, hold, hcnt⟩
  rw [Bool.not_eq_true'] at hp
  rw [hdel fn.functionName v, Bool.and_true, decide_eq_false_iff_not, hnamefn] at hp
  exact hp hin

/-- Registry for C10: a sentinel, an old unused version (deleted in run
one), and an old but recently-invoked version (kept in both runs). -/
def envC10 : Env ℤ :=
  ⟨[⟨"app", [⟨"$LATEST", 0⟩, ⟨"1", -35 * microsPerDay⟩, ⟨"2", -31 * microsPerDay⟩]⟩],
   fun _ v => if v = "2" then .ok [1] else .ok [], fun _ _ => true⟩

theorem C10_second_run_deletes_nothing_witness :
    (∀ f v, envC10.deleteOk f v = true) ∧
    (runInstants cfgDefault
        (applyDeletions envC10 (runInstants cfgDefault envC10 0).st.deleteCalls)
        0).st.deleted_versions = [] :=
  ⟨fun _ _ => rfl,
    C10_second_run_deletes_nothing cfgDefault envC10 0 (fun _ _ => rfl)⟩
